import Mathlib

/-!
Shallow embedding of the return/ratio computation core of the
tsx-dashboard repository, together with theorems settling the frozen
claims about it.

Embedded source:
  - src/core/ratios.py      (_col_like, ttm_sum, latest_value, safe_div,
                             compute_core_ratios)
  - src/pages/1_Screener.py (ytd_return, pct_window)
  - src/pages/2_Fiche_Valeur.py (_ret_days, _ret_ytd: same bodies as
                             pct_window and ytd_return)

Modelling conventions:
  - machine floats become rationals;
  - a pandas NaN cell becomes `none`, a present cell `some v`;
  - a pandas Timestamp becomes a `Date`: a calendar year together with a
    zero-based ordinal day inside the year, ordered lexicographically, so
    that January 1 of year y is the least `Date` of year y;
  - a DataFrame of financial statements (rows = line items, columns =
    period-end dates) becomes a column index plus a list of labelled
    rows; `df.empty` is true when either axis has length 0, as in pandas;
  - a Python dict with string keys read through `.get` becomes a function
    into `Option`;
  - `datetime.now().year` (read by ytd_return) is made an explicit
    `todayYear` parameter, standing for the ambient clock at call time.
-/

/-- A calendar date: year and zero-based day of the year. Stands for a
pandas Timestamp; the order is lexicographic. -/
structure Date where
  year : Int
  doy : Nat
deriving DecidableEq, Repr

/-- Timestamp order, lexicographic on (year, day of year). -/
def dateLe (a b : Date) : Bool :=
  if a.year = b.year then decide (a.doy ≤ b.doy) else decide (a.year < b.year)

/-- Python `str.lower` restricted to its ASCII action, applied per
character to the underlying character list. -/
def strLower (s : String) : String :=
  ⟨s.data.map Char.toLower⟩

/-- Does `hay` start with `needle`? Helper for the substring test. -/
def matchesAt : List Char → List Char → Bool
  | [], _ => true
  | _ :: _, [] => false
  | a :: as, b :: bs => a == b && matchesAt as bs

/-- Does `needle` occur contiguously inside `hay`? -/
def containsSub (needle : List Char) : List Char → Bool
  | [] => needle.isEmpty
  | b :: bs => matchesAt needle (b :: bs) || containsSub needle bs

/-- Python `needle in hay` on strings. -/
def strIn (needle hay : String) : Bool :=
  containsSub needle.data hay.data

/-- The case-insensitive substring test used by `_col_like`:
`name.lower() in label.lower()`. -/
def labelMatches (name lbl : String) : Bool :=
  strIn (strLower name) (strLower lbl)

/-- A statement DataFrame: column index of period-end dates and labelled
rows of optional numeric cells (one cell per column). -/
structure DataFrame where
  cols : List Date
  rows : List (String × List (Option ℚ))
deriving Repr

/-- pandas `df.empty`: true when any axis has length 0. -/
def dfEmpty (df : DataFrame) : Bool :=
  df.rows.isEmpty || df.cols.isEmpty

/-- One step of building a Python dict: later bindings of an existing key
overwrite its value in place, new keys are appended. -/
def dictInsert (m : List (String × String)) (k v : String) :
    List (String × String) :=
  if m.any (fun p => p.1 == k) then
    m.map (fun p => if p.1 == k then (k, v) else p)
  else m ++ [(k, v)]

/-- The dict comprehension in `_col_like`:
`cols = \x7bc.lower(): c for c in df.index.astype(str)\x7d`. -/
def lowerDict (labels : List String) : List (String × String) :=
  labels.foldl (fun m c => dictInsert m (strLower c) c) []

/-- src/core/ratios.py `_col_like`: resolve a line item by
case-insensitive substring match, candidate order winning over row
order; `None` on an empty frame or when nothing matches. -/
def _col_like (df : DataFrame) (candidates : List String) : Option String :=
  if dfEmpty df then none
  else
    candidates.findSome? fun name =>
      ((lowerDict (df.rows.map Prod.fst)).find? fun p =>
        strIn (strLower name) p.1).map Prod.snd

/-- pandas `df.loc[label]`: the row with that label as a (date, cell)
series, aligned with the column index. -/
def dfLoc (df : DataFrame) (label : String) : List (Date × Option ℚ) :=
  df.cols.zip (((df.rows.find? fun r => r.1 == label).map Prod.snd).getD [])

/-- pandas `Series.dropna`: keep only the present cells. -/
def seriesDropna (s : List (Date × Option ℚ)) : List (Date × ℚ) :=
  s.filterMap fun p => p.2.map fun v => (p.1, v)

/-- pandas `Series.sort_index`: sort the (date, value) pairs ascending by
date. -/
def sortByDate (s : List (Date × ℚ)) : List (Date × ℚ) :=
  List.insertionSort (fun a b => dateLe a.1 b.1 = true) s

/-- pandas `Series.tail(n)`: the last `n` elements (all of them when the
series is shorter). -/
def seriesTail (n : Nat) (s : List (Date × ℚ)) : List (Date × ℚ) :=
  s.drop (s.length - n)

/-- src/core/ratios.py `ttm_sum`: sum of the last 4 quarters of a
candidate row. The argument is `Option` because callers pass
`stmts.get(...)`, which may be `None`. -/
def ttm_sum (df_q : Option DataFrame) (candidates : List String) : Option ℚ :=
  match df_q with
  | none => none
  | some df =>
    if dfEmpty df then none
    else
      match _col_like df candidates with
      | none => none
      | some row =>
        let s := seriesTail 4 (sortByDate (seriesDropna (dfLoc df row)))
        if s.isEmpty then none else some (s.map Prod.snd).sum

/-- src/core/ratios.py `latest_value`: the most recent present cell of a
candidate row. -/
def latest_value (df0 : Option DataFrame) (candidates : List String) :
    Option ℚ :=
  match df0 with
  | none => none
  | some df =>
    if dfEmpty df then none
    else
      match _col_like df candidates with
      | none => none
      | some row =>
        let s := sortByDate (seriesDropna (dfLoc df row))
        match s.getLast? with
        | none => none
        | some p => some p.2

/-- src/core/ratios.py `safe_div`: `None` on an absent operand or a zero
denominator, the quotient otherwise. The Python `try/except` only
guards against non-numeric operands, which the rational model excludes
by typing. -/
def safe_div (a b : Option ℚ) : Option ℚ :=
  match a, b with
  | none, _ => none
  | _, none => none
  | some x, some y => if y = 0 then none else some (x / y)

/-- Python truthiness of an optional number: present and nonzero. -/
def truthy (o : Option ℚ) : Bool :=
  match o with
  | none => false
  | some x => decide (x ≠ 0)

/-- The `info` dict of provider profile fields, read through
`info.get(key)`. -/
def Profile : Type := String → Option ℚ

/-- The `stmts` dict produced by `get_statements` in
src/core/data_source.py: quarterly and annual income statement, balance
sheet and cash-flow frames. `compute_core_ratios` reads only
`income_q`, `bs_a` and `cf_q`. Each field is `Option` because
`stmts.get(...)` yields `None` for a missing key. -/
structure Stmts where
  income_q : Option DataFrame
  income_a : Option DataFrame
  bs_q : Option DataFrame
  bs_a : Option DataFrame
  cf_q : Option DataFrame
  cf_a : Option DataFrame

/-- ratios.py lines 71-76: trailing P/E with EPS-TTM fallback. The
guard is `pe is None and price is not None and shares`, with `shares`
read under Python truthiness. -/
def peCalc (price : Option ℚ) (info : Profile) (stmts : Stmts) : Option ℚ :=
  match info "trailingPE" with
  | some v => some v
  | none =>
    match price, info "sharesOutstanding" with
    | some p, some sh =>
      if sh ≠ 0 then
        let net_income_ttm :=
          ttm_sum stmts.income_q ["net income", "net income common"]
        let eps_ttm := safe_div net_income_ttm (some sh)
        safe_div (some p) eps_ttm
      else none
    | _, _ => none

/-- ratios.py lines 82-86: P/S with sales-TTM fallback, same guard shape
as the P/E branch. -/
def psCalc (price : Option ℚ) (info : Profile) (stmts : Stmts) : Option ℚ :=
  match info "priceToSalesTrailing12Months" with
  | some v => some v
  | none =>
    match price, info "sharesOutstanding" with
    | some p, some sh =>
      if sh ≠ 0 then
        let sales_ttm :=
          ttm_sum stmts.income_q ["total revenue", "revenue", "sales"]
        safe_div (some (p * sh)) sales_ttm
      else none
    | _, _ => none

/-- ratios.py lines 89-98: EV/EBITDA. The enterprise-value legs come
from the annual balance sheet `bs_a`; the denominator is quarterly
TTM EBITDA. -/
def evEbitdaCalc (info : Profile) (stmts : Stmts) : Option ℚ :=
  match info "enterpriseToEbitda" with
  | some v => some v
  | none =>
    let total_debt :=
      latest_value stmts.bs_a
        ["total debt", "long term debt", "short long term debt"]
    let cash :=
      latest_value stmts.bs_a ["cash", "cash and cash equivalents"]
    let ev : Option ℚ :=
      match info "marketCap", total_debt, cash with
      | some m, some t, some c => some (m + t - c)
      | _, _, _ => none
    let ebitda_ttm := ttm_sum stmts.income_q ["ebitda"]
    safe_div ev ebitda_ttm

/-- ratios.py lines 101-109: FCF yield; `fcf_yield = safe_div(fcf_ttm,
mcap) if mcap else None`, with `mcap` under Python truthiness. -/
def fcfYieldCalc (info : Profile) (stmts : Stmts) : Option ℚ :=
  let fcf_ttm : Option ℚ :=
    match stmts.cf_q with
    | none => none
    | some cf =>
      if dfEmpty cf then none
      else
        match
          ttm_sum (some cf)
            ["total cash from operating activities", "operating cash flow"],
          ttm_sum (some cf) ["capital expenditures"] with
        | some ocf, some capex => some (ocf - capex)
        | _, _ => none
  if truthy (info "marketCap") then safe_div fcf_ttm (info "marketCap")
  else none

/-- ratios.py lines 112-115: ROE = net income TTM over latest annual
equity. -/
def roeCalc (stmts : Stmts) : Option ℚ :=
  let equity :=
    latest_value stmts.bs_a
      ["total stockholder equity", "total shareholders equity"]
  let net_income_ttm :=
    ttm_sum stmts.income_q ["net income", "net income common"]
  safe_div net_income_ttm equity

/-- ratios.py lines 117-119: D/E = latest total debt over latest
equity. -/
def deCalc (stmts : Stmts) : Option ℚ :=
  let equity :=
    latest_value stmts.bs_a
      ["total stockholder equity", "total shareholders equity"]
  let total_debt := latest_value stmts.bs_a ["total debt", "long term debt"]
  safe_div total_debt equity

/-- ratios.py lines 121-124: current ratio. -/
def currentRatioCalc (stmts : Stmts) : Option ℚ :=
  safe_div (latest_value stmts.bs_a ["total current assets"])
    (latest_value stmts.bs_a ["total current liabilities"])

/-- ratios.py lines 126-133: interest coverage; the denominator is
`abs(int_exp_ttm) if int_exp_ttm else None` under Python truthiness. -/
def interestCoverageCalc (stmts : Stmts) : Option ℚ :=
  let ebit_ttm : Option ℚ :=
    match stmts.income_q with
    | none => none
    | some inc =>
      if dfEmpty inc then none
      else ttm_sum (some inc) ["ebit", "operating income"]
  let int_exp_ttm :=
    ttm_sum stmts.income_q
      ["interest expense", "interest expense non operating"]
  safe_div ebit_ttm
    (match int_exp_ttm with
     | some x => if x ≠ 0 then some |x| else none
     | none => none)

/-- src/core/ratios.py `compute_core_ratios`: the ratio dict, in the
insertion order of the source. The final clean-up loop of the source
re-stores `float(v)` for every finite numeric value, which is the
identity in the rational model, so it is omitted. -/
def compute_core_ratios (price : Option ℚ) (info : Profile) (stmts : Stmts) :
    List (String × Option ℚ) :=
  [("P/E (TTM)", peCalc price info stmts),
   ("P/B", info "priceToBook"),
   ("P/S (TTM)", psCalc price info stmts),
   ("EV/EBITDA (TTM)", evEbitdaCalc info stmts),
   ("FCF Yield (TTM)", fcfYieldCalc info stmts),
   ("ROE (TTM)", roeCalc stmts),
   ("D/E", deCalc stmts),
   ("Current Ratio", currentRatioCalc stmts),
   ("Interest Coverage", interestCoverageCalc stmts),
   ("Dividend Yield", info "dividendYield"),
   ("Beta", info "beta")]

/-- src/pages/1_Screener.py `pct_window` (identical body:
src/pages/2_Fiche_Valeur.py `_ret_days`): drop missing values, then
`s.iloc[-1] / s.iloc[-n-1] - 1`, or `None` when at most `n` values
remain. -/
def pct_window (series : List (Date × Option ℚ)) (n : Nat) : Option ℚ :=
  let s := series.filterMap Prod.snd
  if s.length ≤ n then none
  else some (s.getLastD 0 / s.getD (s.length - 1 - n) 0 - 1)

/-- src/pages/1_Screener.py `ytd_return` (same semantics:
src/pages/2_Fiche_Valeur.py `_ret_ytd`): slice the series at
January 1 of the CURRENT year read from the clock, drop missing values,
then `s.iloc[-1] / s.iloc[0] - 1`, or `None` with fewer than 2 points.
`todayYear` stands for `datetime.now().year`. -/
def ytd_return (todayYear : Int) (series : List (Date × Option ℚ)) :
    Option ℚ :=
  if series.isEmpty then none
  else
    let s :=
      (series.filter fun p => dateLe ⟨todayYear, 0⟩ p.1).filterMap Prod.snd
    if s.length < 2 then none
    else some (s.getLastD 0 / s.headD 0 - 1)

/-! ### Concrete inputs used by witnesses and counterexamples -/

/-- A quarterly income frame whose matched net-income row has only 3
non-missing values. -/
def c1df : DataFrame :=
  ⟨[⟨2024, 0⟩, ⟨2024, 90⟩, ⟨2024, 180⟩],
   [("Net Income", [some 1, some 2, some 3])]⟩

/-- A quarterly frame with 5 EBITDA values, dates already ascending. -/
def c1wdf : DataFrame :=
  ⟨[⟨2023, 300⟩, ⟨2024, 0⟩, ⟨2024, 90⟩, ⟨2024, 180⟩, ⟨2024, 270⟩],
   [("EBITDA", [some 1, some 2, some 3, some 4, some 5])]⟩

/-- Profile without trailingPE but with 100 shares outstanding. -/
def c2info : Profile :=
  fun k => if k = "sharesOutstanding" then some 100 else none

/-- Quarterly income frame with 4 quarters of net income summing to 250. -/
def c2df : DataFrame :=
  ⟨[⟨2024, 0⟩, ⟨2024, 90⟩, ⟨2024, 180⟩, ⟨2024, 270⟩],
   [("Net Income", [some 50, some 60, some 70, some 70])]⟩

/-- Statements carrying only the quarterly income frame `c2df`. -/
def c2stmts : Stmts := ⟨some c2df, none, none, none, none, none⟩

/-- Profile with a provider-supplied trailingPE of 25/2. -/
def c2winfo : Profile :=
  fun k => if k = "trailingPE" then some (25 / 2) else none

/-- A price series with one value-less day between two quotes. -/
def c3series : List (Date × Option ℚ) :=
  [(⟨2024, 10⟩, some 100), (⟨2024, 11⟩, none), (⟨2024, 12⟩, some 110)]

/-- A price series straddling the turn of the year 2024/2025. -/
def c4series : List (Date × Option ℚ) :=
  [(⟨2024, 99⟩, some 100), (⟨2025, 40⟩, some 120), (⟨2025, 70⟩, some 130)]

/-- A frame with a row label but no period columns: pandas counts it as
empty. -/
def c5df : DataFrame := ⟨[], [("Cash", [])]⟩

/-- Two rows such that the second row matches the first candidate. -/
def c5wdf : DataFrame :=
  ⟨[⟨2024, 0⟩],
   [("Long Term Debt", [some 7]), ("Total Debt", [some 9])]⟩

/-- Profile carrying only a beta. -/
def c6info : Profile := fun k => if k = "beta" then some 2 else none

/-- The all-absent statements record. -/
def noStmts : Stmts := ⟨none, none, none, none, none, none⟩

/-- Profile with a market cap of 100 and no enterpriseToEbitda. -/
def c8info : Profile := fun k => if k = "marketCap" then some 100 else none

/-- An annual balance sheet with total debt and cash rows. -/
def c8bs : DataFrame :=
  ⟨[⟨2023, 200⟩, ⟨2024, 200⟩],
   [("Total Debt", [some 50, some 60]),
    ("Cash And Cash Equivalents", [some 5, some 10])]⟩

/-- A quarterly income frame with 4 quarters of EBITDA summing to 50. -/
def c8inc : DataFrame :=
  ⟨[⟨2024, 0⟩, ⟨2024, 90⟩, ⟨2024, 180⟩, ⟨2024, 270⟩],
   [("EBITDA", [some 10, some 10, some 10, some 20])]⟩

/-- Statements for the EV/EBITDA witness. -/
def c8stmts : Stmts := ⟨some c8inc, none, none, some c8bs, none, none⟩

/-- A two-point series inside year 2025. -/
def c7two : List (Date × Option ℚ) :=
  [(⟨2025, 5⟩, some 100), (⟨2025, 30⟩, some 110)]

/-- A one-point series inside year 2025. -/
def c7one : List (Date × Option ℚ) := [(⟨2025, 5⟩, some 100)]

/-- Same quotes as `c10b` on consecutive days. -/
def c10a : List (Date × Option ℚ) :=
  [(⟨2024, 1⟩, some 100), (⟨2024, 2⟩, some 110)]

/-- Same quotes as `c10a` with a years-wide gap between them. -/
def c10b : List (Date × Option ℚ) :=
  [(⟨2020, 5⟩, some 100), (⟨2024, 300⟩, some 110)]

/-! ### Supporting lemmas -/

theorem seriesDropna_map_snd (s : List (Date × Option ℚ)) :
    (seriesDropna s).map Prod.snd = s.filterMap Prod.snd := by
  induction s with
  | nil => rfl
  | cons p t ih =>
    cases h : p.2 with
    | none => simpa [seriesDropna, List.filterMap_cons, h] using ih
    | some v => simpa [seriesDropna, List.filterMap_cons, h] using ih

theorem sortByDate_perm (s : List (Date × ℚ)) : (sortByDate s).Perm s :=
  List.perm_insertionSort _ s

theorem sortByDate_length (s : List (Date × ℚ)) :
    (sortByDate s).length = s.length :=
  (sortByDate_perm s).length_eq

theorem sortByDate_map_snd_sum (s : List (Date × ℚ)) :
    ((sortByDate s).map Prod.snd).sum = (s.map Prod.snd).sum :=
  ((sortByDate_perm s).map Prod.snd).sum_eq

theorem seriesDropna_length (s : List (Date × Option ℚ)) :
    (seriesDropna s).length = (s.filterMap Prod.snd).length := by
  have h := congrArg List.length (seriesDropna_map_snd s)
  simpa using h

theorem getD_zero_eq_headD {α : Type} (l : List α) (d : α) :
    l.getD 0 d = l.headD d := by
  cases l <;> rfl

/-! ### Claim theorems -/

/-- C9: safe_div never fails: it is undefined exactly when the numerator
is absent, the denominator is absent, or the denominator is zero, and is
the quotient otherwise. -/
theorem safe_div_spec :
    (∀ a b : Option ℚ,
       safe_div a b = none ↔ (a = none ∨ b = none ∨ b = some 0)) ∧
    (∀ x y : ℚ, y ≠ 0 → safe_div (some x) (some y) = some (x / y)) := by
  constructor
  · intro a b
    cases a with
    | none => simp [safe_div]
    | some x =>
      cases b with
      | none => simp [safe_div]
      | some y =>
        by_cases hy : y = 0 <;> simp [safe_div, hy]
  · intro x y hy
    simp [safe_div, hy]

/-- Witness for C9 at x = 6, y = 3. -/
theorem safe_div_spec_w :
    (3 : ℚ) ≠ 0 ∧ safe_div (some 6) (some 3) = some 2 := by
  refine ⟨by norm_num, ?_⟩
  have h := safe_div_spec.2 6 3 (by norm_num)
  rw [h]
  norm_num

theorem pct_window_eq_of_lt (series : List (Date × Option ℚ)) (n : Nat)
    (h : n < (series.filterMap Prod.snd).length) :
    pct_window series n =
      some ((series.filterMap Prod.snd).getLastD 0 /
        (series.filterMap Prod.snd).getD
          ((series.filterMap Prod.snd).length - 1 - n) 0 - 1) := by
  have h' : ¬ ((series.filterMap Prod.snd).length ≤ n) := by omega
  simp only [pct_window]
  exact if_neg h'

/-- C3: pct_window is undefined when at most n observations remain after
dropping missing values; otherwise it is last over the value n positions
back minus 1 on the na-dropped series, which with exactly n+1 points is
last over first minus 1. -/
theorem pct_window_spec (series : List (Date × Option ℚ)) (n : Nat) :
    ((series.filterMap Prod.snd).length ≤ n → pct_window series n = none) ∧
    (n < (series.filterMap Prod.snd).length →
       pct_window series n =
         some ((series.filterMap Prod.snd).getLastD 0 /
           (series.filterMap Prod.snd).getD
             ((series.filterMap Prod.snd).length - 1 - n) 0 - 1)) ∧
    ((series.filterMap Prod.snd).length = n + 1 →
       pct_window series n =
         some ((series.filterMap Prod.snd).getLastD 0 /
           (series.filterMap Prod.snd).headD 0 - 1)) := by
  refine ⟨?_, fun h => pct_window_eq_of_lt series n h, ?_⟩
  · intro h
    simp only [pct_window]
    exact if_pos h
  · intro h
    have h0 : (series.filterMap Prod.snd).length - 1 - n = 0 := by omega
    rw [pct_window_eq_of_lt series n (by omega), h0, getD_zero_eq_headD]

/-- Witness for C3: two quotes around a missing day, windows 1 and 2. -/
theorem pct_window_spec_w :
    (c3series.filterMap Prod.snd).length = 1 + 1 ∧
    pct_window c3series 1 = some (1 / 10) ∧
    pct_window c3series 2 = none := by
  refine ⟨by decide, ?_, ?_⟩
  · have h := (pct_window_spec c3series 1).2.2 (by decide)
    rw [h]
    simp [c3series]
    norm_num
  · exact (pct_window_spec c3series 2).1 (by decide)

/-- C10: pct_window is insensitive to the dates attached to a series:
equal sequences of non-missing values give equal results for every
window size. -/
theorem pct_window_value_only (s1 s2 : List (Date × Option ℚ)) (n : Nat)
    (h : s1.filterMap Prod.snd = s2.filterMap Prod.snd) :
    pct_window s1 n = pct_window s2 n := by
  simp [pct_window, h]

/-- Witness for C10: consecutive days against a years-wide gap. -/
theorem pct_window_value_only_w :
    c10a.filterMap Prod.snd = c10b.filterMap Prod.snd ∧
    pct_window c10a 1 = pct_window c10b 1 :=
  ⟨rfl, pct_window_value_only c10a c10b 1 rfl⟩

/-- C7: the YTD slice keeps exactly the observations whose year is at
least the as-of year; with fewer than 2 non-missing points in the slice
the result is undefined, otherwise it is last over first minus 1 on the
slice. -/
theorem ytd_return_spec (y : Int) (series : List (Date × Option ℚ)) :
    (∀ dd : Date, dateLe ⟨y, 0⟩ dd = true ↔ y ≤ dd.year) ∧
    (((series.filter fun p => dateLe ⟨y, 0⟩ p.1).filterMap Prod.snd).length < 2 →
       ytd_return y series = none) ∧
    (2 ≤ ((series.filter fun p => dateLe ⟨y, 0⟩ p.1).filterMap Prod.snd).length →
       ytd_return y series =
         some
           (((series.filter fun p => dateLe ⟨y, 0⟩ p.1).filterMap
               Prod.snd).getLastD 0 /
             ((series.filter fun p => dateLe ⟨y, 0⟩ p.1).filterMap
               Prod.snd).headD 0 - 1)) := by
  refine ⟨?_, ?_, ?_⟩
  · intro dd
    by_cases hy : y = dd.year
    · simp [dateLe, hy]
    · simp [dateLe, hy]
      omega
  · intro h
    by_cases he : series.isEmpty
    · simp [ytd_return, he]
    · simp [ytd_return, he, h]
  · intro h
    have he : series.isEmpty = false := by
      cases series with
      | nil => simp at h
      | cons a t => rfl
    have h2 :
        ¬ (((series.filter fun p => dateLe ⟨y, 0⟩ p.1).filterMap
             Prod.snd).length < 2) := by omega
    simp [ytd_return, he, h2]

/-- Witness for C7: a one-point slice is undefined, a two-point slice is
p1 over p0 minus 1. -/
theorem ytd_return_spec_w :
    ytd_return 2025 c7one = none ∧ ytd_return 2025 c7two = some (1 / 10) := by
  constructor
  · exact (ytd_return_spec 2025 c7one).2.1 (by decide)
  · have h := (ytd_return_spec 2025 c7two).2.2 (by decide)
    rw [h]
    simp [c7two, dateLe]
    norm_num

/-- C4 counterexample: ytd_return reads the clock year, so the same
series gives different results at clock years 2024 and 2025. -/
theorem ytd_clock_cex : ytd_return 2024 c4series ≠ ytd_return 2025 c4series := by
  have h1 : ytd_return 2024 c4series = some (3 / 10) := by
    simp [ytd_return, c4series, dateLe]
    norm_num
  have h2 : ytd_return 2025 c4series = some (1 / 12) := by
    simp [ytd_return, c4series, dateLe]
    norm_num
  rw [h1, h2]
  intro hcontra
  have := Option.some.inj hcontra
  norm_num at this

/-- C4 amended: yearToDateReturn depends on the ambient clock year:
there is a series on which two invocations with equal series arguments
differ when the clock year differs. The other core operations take no
clock input at all in this development. -/
theorem ytd_clock_dependence :
    ∃ (y₁ y₂ : Int) (s : List (Date × Option ℚ)),
      ytd_return y₁ s ≠ ytd_return y₂ s := by
  refine ⟨2024, 2025, c4series, ?_⟩
  have h1 : ytd_return 2024 c4series = some (3 / 10) := by
    simp [ytd_return, c4series, dateLe]
    norm_num
  have h2 : ytd_return 2025 c4series = some (1 / 12) := by
    simp [ytd_return, c4series, dateLe]
    norm_num
  rw [h1, h2]
  intro hcontra
  have := Option.some.inj hcontra
  norm_num at this

theorem lookup_pe (price : Option ℚ) (info : Profile) (stmts : Stmts) :
    List.lookup "P/E (TTM)" (compute_core_ratios price info stmts) =
      some (peCalc price info stmts) := rfl

theorem lookup_pb (price : Option ℚ) (info : Profile) (stmts : Stmts) :
    List.lookup "P/B" (compute_core_ratios price info stmts) =
      some (info "priceToBook") := rfl

theorem lookup_ev (price : Option ℚ) (info : Profile) (stmts : Stmts) :
    List.lookup "EV/EBITDA (TTM)" (compute_core_ratios price info stmts) =
      some (evEbitdaCalc info stmts) := rfl

theorem lookup_beta (price : Option ℚ) (info : Profile) (stmts : Stmts) :
    List.lookup "Beta" (compute_core_ratios price info stmts) =
      some (info "beta") := rfl

/-- C2: the provider trailingPE always wins; only when it is absent is
the EPS-TTM fallback used, and whenever trailingPE is absent, the price
is 10, there are 100 shares outstanding and TTM net income is 250, the
fallback gives exactly 10 / (250 / 100) = 4. -/
theorem pe_fallback_spec :
    (∀ (price : Option ℚ) (info : Profile) (stmts : Stmts) (v : ℚ),
       info "trailingPE" = some v →
       List.lookup "P/E (TTM)" (compute_core_ratios price info stmts) =
         some (some v)) ∧
    (∀ (info : Profile) (stmts : Stmts),
       info "trailingPE" = none →
       info "sharesOutstanding" = some 100 →
       ttm_sum stmts.income_q ["net income", "net income common"] =
         some 250 →
       List.lookup "P/E (TTM)" (compute_core_ratios (some 10) info stmts) =
         some (some 4)) := by
  constructor
  · intro price info stmts v h
    rw [lookup_pe]
    unfold peCalc
    rw [h]
  · intro info stmts h0 hsh httm
    rw [lookup_pe]
    unfold peCalc
    rw [h0, hsh, httm]
    norm_num [safe_div]

/-- Witness for C2: a profile with trailingPE 25/2 is returned as is,
and the fallback example on concrete statement data gives 4. -/
theorem pe_fallback_spec_w :
    List.lookup "P/E (TTM)" (compute_core_ratios none c2winfo noStmts) =
      some (some (25 / 2)) ∧
    List.lookup "P/E (TTM)" (compute_core_ratios (some 10) c2info c2stmts) =
      some (some 4) := by
  constructor
  · exact pe_fallback_spec.1 none c2winfo noStmts (25 / 2) (by simp [c2winfo])
  · refine pe_fallback_spec.2 c2info c2stmts (by simp [c2info])
      (by simp [c2info]) ?_
    simp [c2stmts, c2df, ttm_sum, dfEmpty, _col_like, lowerDict, dictInsert,
      strLower, strIn, containsSub, matchesAt, dfLoc, seriesDropna,
      sortByDate, seriesTail, List.insertionSort, List.orderedInsert, dateLe,
      List.findSome?, List.find?]
    norm_num

/-- C6: for every input, compute_core_ratios returns a mapping over
exactly the fixed closed set of ratio names; with all inputs absent it
still returns the full mapping with every value undefined, and a
present provider field is reported even while unrelated metrics stay
undefined (partial results, never all-or-nothing). -/
theorem compute_core_ratios_total :
    (∀ (price : Option ℚ) (info : Profile) (stmts : Stmts),
       (compute_core_ratios price info stmts).map Prod.fst =
         ["P/E (TTM)", "P/B", "P/S (TTM)", "EV/EBITDA (TTM)",
          "FCF Yield (TTM)", "ROE (TTM)", "D/E", "Current Ratio",
          "Interest Coverage", "Dividend Yield", "Beta"]) ∧
    compute_core_ratios none (fun _ => none) noStmts =
      [("P/E (TTM)", none), ("P/B", none), ("P/S (TTM)", none),
       ("EV/EBITDA (TTM)", none), ("FCF Yield (TTM)", none),
       ("ROE (TTM)", none), ("D/E", none), ("Current Ratio", none),
       ("Interest Coverage", none), ("Dividend Yield", none),
       ("Beta", none)] ∧
    List.lookup "Beta" (compute_core_ratios none c6info noStmts) =
      some (some 2) ∧
    List.lookup "P/B" (compute_core_ratios none c6info noStmts) =
      some none := by
  refine ⟨fun price info stmts => rfl, ?_, ?_, ?_⟩
  · rfl
  · rw [lookup_beta]
    simp [c6info]
  · rw [lookup_pb]
    simp [c6info]

/-- C8: EV/EBITDA takes the provider enterpriseToEbitda when present;
otherwise it is (marketCap + latest annual total debt − latest annual
cash) over TTM EBITDA, undefined when any enterprise-value leg or the
denominator is absent or the denominator is zero; the quarterly balance
sheet is never consulted. -/
theorem ev_ebitda_spec :
    (∀ (price : Option ℚ) (info : Profile) (stmts : Stmts) (v : ℚ),
       info "enterpriseToEbitda" = some v →
       List.lookup "EV/EBITDA (TTM)" (compute_core_ratios price info stmts) =
         some (some v)) ∧
    (∀ (price : Option ℚ) (info : Profile) (stmts : Stmts) (m t c e : ℚ),
       info "enterpriseToEbitda" = none →
       info "marketCap" = some m →
       latest_value stmts.bs_a
         ["total debt", "long term debt", "short long term debt"] = some t →
       latest_value stmts.bs_a ["cash", "cash and cash equivalents"] = some c →
       ttm_sum stmts.income_q ["ebitda"] = some e →
       e ≠ 0 →
       List.lookup "EV/EBITDA (TTM)" (compute_core_ratios price info stmts) =
         some (some ((m + t - c) / e))) ∧
    (∀ (price : Option ℚ) (info : Profile) (stmts : Stmts),
       info "enterpriseToEbitda" = none →
       (info "marketCap" = none ∨
        latest_value stmts.bs_a
          ["total debt", "long term debt", "short long term debt"] = none ∨
        latest_value stmts.bs_a ["cash", "cash and cash equivalents"] = none ∨
        ttm_sum stmts.income_q ["ebitda"] = none ∨
        ttm_sum stmts.income_q ["ebitda"] = some 0) →
       List.lookup "EV/EBITDA (TTM)" (compute_core_ratios price info stmts) =
         some none) ∧
    (∀ (price : Option ℚ) (info : Profile)
       (iq ia bq bq2 ba cq ca : Option DataFrame),
       compute_core_ratios price info ⟨iq, ia, bq, ba, cq, ca⟩ =
         compute_core_ratios price info ⟨iq, ia, bq2, ba, cq, ca⟩) := by
  refine ⟨?_, ?_, ?_, fun price info iq ia bq bq2 ba cq ca => rfl⟩
  · intro price info stmts v h
    rw [lookup_ev]
    unfold evEbitdaCalc
    rw [h]
  · intro price info stmts m t c e h0 hm ht hc he hz
    rw [lookup_ev]
    unfold evEbitdaCalc
    rw [h0, hm, ht, hc, he]
    simp [safe_div, hz]
  · intro price info stmts h0 hcases
    rw [lookup_ev]
    unfold evEbitdaCalc
    rw [h0]
    rcases hcases with hm | ht | hc | he | he0
    · rw [hm]
      rcases hlv :
          latest_value stmts.bs_a
            ["total debt", "long term debt", "short long term debt"] with _ | t
      · simp [safe_div]
      · rcases hlc :
            latest_value stmts.bs_a ["cash", "cash and cash equivalents"]
            with _ | c <;> simp [safe_div]
    · rw [ht]
      rcases hmc : info "marketCap" with _ | m <;> simp [safe_div]
    · rw [hc]
      rcases hmc : info "marketCap" with _ | m
      · simp [safe_div]
      · rcases hlv :
            latest_value stmts.bs_a
              ["total debt", "long term debt", "short long term debt"]
            with _ | t <;> simp [safe_div]
    · rw [he]
      simp [safe_div]
      rcases info "marketCap" with _ | m <;>
        rcases latest_value stmts.bs_a
          ["total debt", "long term debt", "short long term debt"] with _ | t <;>
        rcases latest_value stmts.bs_a ["cash", "cash and cash equivalents"]
          with _ | c <;> rfl
    · rw [he0]
      rcases info "marketCap" with _ | m <;>
        rcases latest_value stmts.bs_a
          ["total debt", "long term debt", "short long term debt"] with _ | t <;>
        rcases latest_value stmts.bs_a ["cash", "cash and cash equivalents"]
          with _ | c <;> simp [safe_div]

/-- Witness for C8: marketCap 100, annual total debt 60, annual cash 10,
TTM EBITDA 50 give (100 + 60 - 10) / 50 = 3. -/
theorem ev_ebitda_spec_w :
    List.lookup "EV/EBITDA (TTM)" (compute_core_ratios none c8info c8stmts) =
      some (some 3) := by
  have h :=
    ev_ebitda_spec.2.1 none c8info c8stmts 100 60 10 50
      (by simp [c8info])
      (by simp [c8info])
      (by
        simp [c8stmts, c8bs, latest_value, dfEmpty, _col_like, lowerDict,
          dictInsert, strLower, strIn, containsSub, matchesAt, dfLoc,
          seriesDropna, sortByDate, seriesTail, List.insertionSort,
          List.orderedInsert, dateLe, List.findSome?, List.find?])
      (by
        simp [c8stmts, c8bs, latest_value, dfEmpty, _col_like, lowerDict,
          dictInsert, strLower, strIn, containsSub, matchesAt, dfLoc,
          seriesDropna, sortByDate, seriesTail, List.insertionSort,
          List.orderedInsert, dateLe, List.findSome?, List.find?])
      (by
        simp [c8stmts, c8inc, ttm_sum, dfEmpty, _col_like, lowerDict,
          dictInsert, strLower, strIn, containsSub, matchesAt, dfLoc,
          seriesDropna, sortByDate, seriesTail, List.insertionSort,
          List.orderedInsert, dateLe, List.findSome?, List.find?]
        norm_num)
      (by norm_num)
  rw [h]
  norm_num

theorem isEmpty_false_of_length_ne_zero {α : Type} (l : List α)
    (h : l.length ≠ 0) : l.isEmpty = false := by
  cases l with
  | nil => simp at h
  | cons a t => rfl

theorem seriesTail_of_le (n : Nat) (s : List (Date × ℚ)) (h : s.length ≤ n) :
    seriesTail n s = s := by
  unfold seriesTail
  rw [Nat.sub_eq_zero_of_le h, List.drop_zero]

theorem _col_like_nonempty (df : DataFrame) (cands : List String)
    (row : String) (h : _col_like df cands = some row) :
    dfEmpty df = false := by
  by_cases hd : dfEmpty df = true
  · unfold _col_like at h
    rw [if_pos hd] at h
    cases h
  · simpa using hd

/-- C1 (amended): ttm_sum resolves the line item, drops missing values,
sorts ascending by date and sums the last `min 4 k` values where `k`
counts the non-missing cells: with `1 ≤ k ≤ 4` it returns the sum of
ALL `k` remaining values, with `k ≥ 4` the sum of the last 4, and it is
undefined exactly when the frame is absent or empty, no candidate
matches, or `k = 0` — not when `k` is merely below 4. -/
theorem ttm_sum_spec :
    (∀ cands : List String, ttm_sum none cands = none) ∧
    (∀ (df : DataFrame) (cands : List String),
       _col_like df cands = none → ttm_sum (some df) cands = none) ∧
    (∀ (df : DataFrame) (cands : List String) (row : String),
       _col_like df cands = some row →
       ((dfLoc df row).filterMap Prod.snd).length = 0 →
       ttm_sum (some df) cands = none) ∧
    (∀ (df : DataFrame) (cands : List String) (row : String),
       _col_like df cands = some row →
       1 ≤ ((dfLoc df row).filterMap Prod.snd).length →
       ((dfLoc df row).filterMap Prod.snd).length ≤ 4 →
       ttm_sum (some df) cands =
         some ((dfLoc df row).filterMap Prod.snd).sum) ∧
    (∀ (df : DataFrame) (cands : List String) (row : String),
       _col_like df cands = some row →
       4 ≤ ((dfLoc df row).filterMap Prod.snd).length →
       ttm_sum (some df) cands =
         some ((seriesTail 4 (sortByDate (seriesDropna (dfLoc df row)))).map
             Prod.snd).sum) := by
  refine ⟨fun cands => rfl, ?_, ?_, ?_, ?_⟩
  · intro df cands hcol
    by_cases hd : dfEmpty df = true
    · simp [ttm_sum, hd]
    · have hd' : dfEmpty df = false := by simpa using hd
      simp [ttm_sum, hd', hcol]
  · intro df cands row hcol hk
    have hd := _col_like_nonempty df cands row hcol
    have hlen : (sortByDate (seriesDropna (dfLoc df row))).length = 0 := by
      rw [sortByDate_length, seriesDropna_length, hk]
    have hnil : sortByDate (seriesDropna (dfLoc df row)) = [] :=
      List.eq_nil_of_length_eq_zero hlen
    simp [ttm_sum, hd, hcol, hnil, seriesTail]
  · intro df cands row hcol h1 h4
    have hd := _col_like_nonempty df cands row hcol
    have hlen : (sortByDate (seriesDropna (dfLoc df row))).length =
        ((dfLoc df row).filterMap Prod.snd).length := by
      rw [sortByDate_length, seriesDropna_length]
    have htail :
        seriesTail 4 (sortByDate (seriesDropna (dfLoc df row))) =
          sortByDate (seriesDropna (dfLoc df row)) :=
      seriesTail_of_le 4 _ (by omega)
    have hne :
        (sortByDate (seriesDropna (dfLoc df row))).isEmpty = false :=
      isEmpty_false_of_length_ne_zero _ (by omega)
    simp only [ttm_sum, hd, hcol, htail, hne, sortByDate_map_snd_sum,
      seriesDropna_map_snd]
    simp
  · intro df cands row hcol h4
    have hd := _col_like_nonempty df cands row hcol
    have hlen : (sortByDate (seriesDropna (dfLoc df row))).length =
        ((dfLoc df row).filterMap Prod.snd).length := by
      rw [sortByDate_length, seriesDropna_length]
    have htlen :
        (seriesTail 4 (sortByDate (seriesDropna (dfLoc df row)))).length ≠ 0 := by
      unfold seriesTail
      rw [List.length_drop]
      omega
    have hne := isEmpty_false_of_length_ne_zero _ htlen
    simp only [ttm_sum, hd, hcol, hne]
    simp

/-- C1 counterexample: a matched row with only 3 non-missing quarterly
values yields the sum of those 3 values, not an undefined result. -/
theorem ttm_sum_three_cex :
    ttm_sum (some c1df) ["net income"] = some 6 ∧
    ttm_sum (some c1df) ["net income"] ≠ none := by
  have h : ttm_sum (some c1df) ["net income"] = some 6 := by
    simp [c1df, ttm_sum, dfEmpty, _col_like, lowerDict, dictInsert, strLower,
      strIn, containsSub, matchesAt, dfLoc, seriesDropna, sortByDate,
      seriesTail, List.insertionSort, List.orderedInsert, dateLe,
      List.findSome?, List.find?]
    norm_num
  exact ⟨h, by rw [h]; simp⟩

/-- Witness for C1 on a row with 5 values: the last 4 ascending values
2, 3, 4, 5 sum to 14. -/
theorem ttm_sum_spec_w :
    ttm_sum (some c1wdf) ["ebitda"] = some 14 := by
  have hcol : _col_like c1wdf ["ebitda"] = some "EBITDA" := by
    simp [c1wdf, _col_like, dfEmpty, lowerDict, dictInsert, strLower, strIn,
      containsSub, matchesAt, List.findSome?, List.find?]
  have h := ttm_sum_spec.2.2.2.2 c1wdf ["ebitda"] "EBITDA" hcol (by decide)
  rw [h]
  simp [c1wdf, dfLoc, seriesDropna, sortByDate, seriesTail,
    List.insertionSort, List.orderedInsert, dateLe, List.find?]
  norm_num

theorem dictInsert_mem (m : List (String × String)) (k v : String)
    (e : String × String) (h : e ∈ dictInsert m k v) : e ∈ m ∨ e = (k, v) := by
  unfold dictInsert at h
  by_cases ha : m.any (fun p => p.1 == k) = true
  · rw [if_pos ha] at h
    rcases List.mem_map.mp h with ⟨p, hp, he⟩
    by_cases hk : (p.1 == k) = true
    · rw [if_pos hk] at he
      right
      exact he.symm
    · rw [if_neg hk] at he
      left
      rw [← he]
      exact hp
  · rw [if_neg ha] at h
    rcases List.mem_append.mp h with h1 | h2
    · left
      exact h1
    · right
      simpa using h2

theorem dictInsert_hasKey (m : List (String × String)) (k v k2 v2 : String)
    (h : (k, v) ∈ m) : ∃ w, (k, w) ∈ dictInsert m k2 v2 := by
  unfold dictInsert
  by_cases ha : m.any (fun p => p.1 == k2) = true
  · rw [if_pos ha]
    by_cases hk : k = k2
    · subst hk
      exact ⟨v2, List.mem_map.mpr ⟨(k, v), h, by simp⟩⟩
    · exact ⟨v, List.mem_map.mpr ⟨(k, v), h, by simp [hk]⟩⟩
  · rw [if_neg ha]
    exact ⟨v, List.mem_append.mpr (Or.inl h)⟩

theorem dictInsert_self (m : List (String × String)) (k v : String) :
    ∃ w, (k, w) ∈ dictInsert m k v := by
  unfold dictInsert
  by_cases ha : m.any (fun p => p.1 == k) = true
  · rw [if_pos ha]
    rcases List.any_eq_true.mp ha with ⟨p, hp, hpk⟩
    refine ⟨v, List.mem_map.mpr ⟨p, hp, ?_⟩⟩
    simp [hpk]
  · rw [if_neg ha]
    exact ⟨v, List.mem_append.mpr (Or.inr (by simp))⟩

theorem lowerDict_aux_mem (labels : List String) :
    ∀ (m : List (String × String)) (e : String × String),
      e ∈ labels.foldl (fun m c => dictInsert m (strLower c) c) m →
      e ∈ m ∨ ∃ c, c ∈ labels ∧ e = (strLower c, c) := by
  induction labels with
  | nil =>
    intro m e h
    exact Or.inl h
  | cons c t ih =>
    intro m e h
    rw [List.foldl_cons] at h
    rcases ih (dictInsert m (strLower c) c) e h with h1 | h2
    · rcases dictInsert_mem _ _ _ _ h1 with hm | hev
      · exact Or.inl hm
      · exact Or.inr ⟨c, by simp, hev⟩
    · rcases h2 with ⟨c2, hc2, he⟩
      exact Or.inr ⟨c2, by simp [hc2], he⟩

theorem lowerDict_mem (labels : List String) (e : String × String)
    (h : e ∈ lowerDict labels) : ∃ c, c ∈ labels ∧ e = (strLower c, c) := by
  rcases lowerDict_aux_mem labels [] e h with h1 | h2
  · simp at h1
  · exact h2

theorem lowerDict_aux_key (labels : List String) :
    ∀ (m : List (String × String)) (k : String),
      ((∃ w, (k, w) ∈ m) ∨ ∃ c, c ∈ labels ∧ strLower c = k) →
      ∃ w, (k, w) ∈ labels.foldl (fun m c => dictInsert m (strLower c) c) m := by
  induction labels with
  | nil =>
    intro m k h
    rcases h with ⟨w, hw⟩ | ⟨c, hc, _⟩
    · exact ⟨w, hw⟩
    · simp at hc
  | cons c t ih =>
    intro m k h
    rw [List.foldl_cons]
    apply ih
    rcases h with ⟨w, hw⟩ | ⟨c2, hc2, hk⟩
    · exact Or.inl (dictInsert_hasKey m k w (strLower c) c hw)
    · rcases List.mem_cons.mp hc2 with rfl | hmem
      · rw [← hk]
        exact Or.inl (dictInsert_self m (strLower c2) c2)
      · exact Or.inr ⟨c2, hmem, hk⟩

theorem lowerDict_key (labels : List String) (c : String) (h : c ∈ labels) :
    ∃ w, (strLower c, w) ∈ lowerDict labels :=
  lowerDict_aux_key labels [] (strLower c) (Or.inr ⟨c, h, rfl⟩)

theorem findRow_some (labels : List String) (name : String)
    (h : labels.any (fun lbl => labelMatches name lbl) = true) :
    ∃ lbl,
      ((lowerDict labels).find? fun p => strIn (strLower name) p.1).map
          Prod.snd = some lbl ∧
        lbl ∈ labels ∧ labelMatches name lbl = true := by
  rcases List.any_eq_true.mp h with ⟨l0, hl0, hm0⟩
  rcases lowerDict_key labels l0 hl0 with ⟨w, hw⟩
  have hsome :
      ((lowerDict labels).find? fun p => strIn (strLower name) p.1).isSome := by
    apply List.find?_isSome.mpr
    refine ⟨(strLower l0, w), hw, ?_⟩
    simpa [labelMatches] using hm0
  rcases Option.isSome_iff_exists.mp hsome with ⟨e, he⟩
  have hpe := List.find?_some he
  have hme := List.mem_of_find?_eq_some he
  rcases lowerDict_mem labels e hme with ⟨c, hc, rfl⟩
  refine ⟨c, by rw [he]; rfl, hc, ?_⟩
  simpa [labelMatches] using hpe

theorem findRow_none (labels : List String) (name : String)
    (h : labels.any (fun lbl => labelMatches name lbl) = false) :
    ((lowerDict labels).find? fun p => strIn (strLower name) p.1).map
      Prod.snd = none := by
  rcases hf : (lowerDict labels).find? fun p => strIn (strLower name) p.1
    with _ | e
  · rw [hf]
    rfl
  · exfalso
    have hpe := List.find?_some hf
    have hme := List.mem_of_find?_eq_some hf
    rcases lowerDict_mem labels e hme with ⟨c, hc, rfl⟩
    have hany : labels.any (fun lbl => labelMatches name lbl) = true :=
      List.any_eq_true.mpr ⟨c, hc, by simpa [labelMatches] using hpe⟩
    rw [h] at hany
    cases hany

theorem findSome_none_of_all_fail (labels : List String) :
    ∀ cands : List String,
      (∀ name ∈ cands, labels.any (fun lbl => labelMatches name lbl) = false) →
      List.findSome?
          (fun name =>
            ((lowerDict labels).find? fun p => strIn (strLower name) p.1).map
              Prod.snd)
          cands = none := by
  intro cands
  induction cands with
  | nil =>
    intro _
    rfl
  | cons c t ih =>
    intro h
    rw [List.findSome?_cons]
    have hfc := findRow_none labels c (h c (by simp))
    simp only [hfc]
    exact ih fun name hn => h name (by simp [hn])

/-- C5 (amended): on a frame that is nonempty in both axes,
_col_like returns a row label matching the EARLIEST candidate that has
any matching row (candidate order is the tie-break, not row order), and
it returns `None` whenever no candidate matches any row label; on a
frame that pandas counts as empty (no rows or no period columns) it
returns `None` even when a candidate matches a row label. -/
theorem col_like_spec (df : DataFrame) (cands : List String) :
    (∀ cand : String,
       dfEmpty df = false →
       cands.find?
           (fun name =>
             (df.rows.map Prod.fst).any fun lbl => labelMatches name lbl) =
         some cand →
       ∃ lbl, lbl ∈ df.rows.map Prod.fst ∧ labelMatches cand lbl = true ∧
         _col_like df cands = some lbl) ∧
    (cands.find?
         (fun name =>
           (df.rows.map Prod.fst).any fun lbl => labelMatches name lbl) =
       none →
       _col_like df cands = none) := by
  constructor
  · intro cand hd
    induction cands with
    | nil =>
      intro hfind
      simp at hfind
    | cons c t ih =>
      intro hfind
      by_cases hc :
          ((df.rows.map Prod.fst).any fun lbl => labelMatches c lbl) = true
      · have hcc : cand = c := by
          rw [@List.find?_cons_of_pos String
              (fun name =>
                (df.rows.map Prod.fst).any fun lbl => labelMatches name lbl)
              c t hc] at hfind
          exact (Option.some.inj hfind).symm
        subst hcc
        rcases findRow_some (df.rows.map Prod.fst) cand hc with
          ⟨lbl, hmap, hmem, hmatch⟩
        refine ⟨lbl, hmem, hmatch, ?_⟩
        unfold _col_like
        rw [if_neg (by simp [hd])]
        rw [List.findSome?_cons]
        simp only [hmap]
      · have hc2 :
            ((df.rows.map Prod.fst).any fun lbl => labelMatches c lbl) =
              false := by
          simpa using hc
        have hfind2 :
            t.find?
                (fun name =>
                  (df.rows.map Prod.fst).any fun lbl =>
                    labelMatches name lbl) = some cand := by
          rwa [@List.find?_cons_of_neg String
              (fun name =>
                (df.rows.map Prod.fst).any fun lbl => labelMatches name lbl)
              c t (by simp [hc2])] at hfind
        rcases ih hfind2 with ⟨lbl, hmem, hmatch, hcl⟩
        refine ⟨lbl, hmem, hmatch, ?_⟩
        unfold _col_like at hcl ⊢
        rw [if_neg (by simp [hd])] at hcl ⊢
        rw [List.findSome?_cons]
        have hfc := findRow_none (df.rows.map Prod.fst) c hc2
        simp only [hfc]
        exact hcl
  · intro hfind
    by_cases hd : dfEmpty df = true
    · unfold _col_like
      rw [if_pos hd]
    · have hd2 : dfEmpty df = false := by simpa using hd
      unfold _col_like
      rw [if_neg (by simp [hd2])]
      apply findSome_none_of_all_fail
      intro name hn
      have := List.find?_eq_none.mp hfind name hn
      simpa using this

/-- C5 counterexample: a frame with a matching row label but no period
columns is empty for pandas, so resolution returns `None` although the
candidate matches a row label. -/
theorem col_like_cex :
    labelMatches "cash" "Cash" = true ∧
    "Cash" ∈ c5df.rows.map Prod.fst ∧
    _col_like c5df ["cash"] = none := by
  refine ⟨by decide, by decide, rfl⟩

/-- Witness for C5: the first candidate wins even though a different row
comes first in the frame. -/
theorem col_like_spec_w :
    ∃ lbl, lbl ∈ c5wdf.rows.map Prod.fst ∧
      labelMatches "total debt" lbl = true ∧
      _col_like c5wdf ["total debt", "long term debt"] = some lbl :=
  (col_like_spec c5wdf ["total debt", "long term debt"]).1 "total debt"
    (by decide) (by decide)
